import Mathlib

/-!
Shallow embedding of the MySQL database-proxy engine
(`lib/srv/db/mysql/engine.go` of the teleport repository): the
connection-phase orchestration (`HandleConnection`), the authorization
check (`checkAccess`), backend connection negotiation (`connect`), the
Cloud SQL semaphore configuration (`makeAcquireSemaphoreConfig`) and the
client-to-backend relay loop (`receiveFromClient`).

External effects (audit calls, backend connection attempts, protocol
writes, deferred closes) are recorded as an explicit event trace; the
outcomes of external calls (credential providers, the authorizer, the
network) are supplied by an environment record, so every code path of
the Go source corresponds to a choice of environment.
-/

namespace MySQLEngine

/-- Error classification mirroring the `gravitational/trace` error kinds the
engine inspects: `trace.IsLimitExceeded` and `trace.IsAccessDenied`. -/
inductive ErrKind
  | accessDenied
  | limitExceeded
  | other
deriving DecidableEq, Repr

/-- An error value: a classification kind plus a message, as produced and
inspected through the `trace` package. -/
structure Err where
  kind : ErrKind
  msg : String
deriving DecidableEq, Repr

/-- `trace.Wrap` preserves the wrapped error's classification and message
(it only adds a stack trace, which is not observable here). -/
def traceWrap (e : Err) : Err := e

/-- `trace.IsLimitExceeded`. -/
def isLimitExceeded (e : Err) : Bool := e.kind == ErrKind.limitExceeded

/-- `trace.IsAccessDenied`. -/
def isAccessDenied (e : Err) : Bool := e.kind == ErrKind.accessDenied

/-- `trace.LimitExceeded(msg)`: a fresh limit-exceeded error. -/
def limitExceededErr (m : String) : Err := ⟨ErrKind.limitExceeded, m⟩

/-- `trace.AccessDenied(msg)`: a fresh access-denied error. -/
def accessDeniedErr (m : String) : Err := ⟨ErrKind.accessDenied, m⟩

/-- Backend kind, from the mutually exclusive predicates
`Database.IsRDS`, `Database.IsCloudSQL`, `Database.IsAzure` used by the
`switch` in `connect`; `selfHosted` is the default branch. -/
inductive DBType
  | selfHosted
  | rds
  | cloudSQL
  | azure
deriving DecidableEq, Repr

/-- `types.DatabaseTLSMode`; `connect` only tests `Mode != INSECURE`. -/
inductive TLSMode
  | verifyFull
  | verifyCA
  | insecure
deriving DecidableEq, Repr

/-- The fields of the target database descriptor read by the engine:
`GetName`, `GetURI`, `GetTLS().Mode`, `GetIAMPolicy`, `GetAzure().Name`. -/
structure Database where
  dbType : DBType
  name : String
  uri : String
  tlsMode : TLSMode
  iamPolicy : String
  azureName : String
deriving DecidableEq, Repr

/-- The fields of `common.Session` the engine reads. -/
structure Session where
  database : Database
  databaseUser : String
  databaseName : String
  mfaVerified : String
deriving DecidableEq, Repr

/-- `services.AccessMFAParams` built by `checkAccess`. -/
structure AccessMFAParams where
  verified : Bool
  alwaysRequired : Bool
deriving DecidableEq, Repr

/-- `types.AcquireSemaphoreRequest` as filled in by
`makeAcquireSemaphoreConfig`.  Time is measured in seconds. -/
structure AcquireSemaphoreRequest where
  semaphoreKind : String
  semaphoreName : String
  maxLeases : Nat
  expires : Nat
deriving DecidableEq, Repr

/-- `utils.LinearConfig` retry policy (step and max, in seconds). -/
structure LinearConfig where
  step : Nat
  max : Nat
deriving DecidableEq, Repr

/-- `services.AcquireSemaphoreWithRetryConfig` (the `Service` and `Clock`
references are capabilities, not data). -/
structure AcquireSemaphoreWithRetryConfig where
  request : AcquireSemaphoreRequest
  retry : LinearConfig
deriving DecidableEq, Repr

/-- `makeAcquireSemaphoreConfig`: builds the semaphore acquisition
parameters for a Cloud SQL connection.  `time.Minute` is 60 seconds and
`time.Second` is 1 second in this model's clock units. -/
def makeAcquireSemaphoreConfig (clockNow : Nat) (s : Session) :
    AcquireSemaphoreWithRetryConfig :=
  { request :=
      { semaphoreKind := "gcp-mysql-token"
        semaphoreName := s.database.name ++ "-" ++ s.databaseUser
        maxLeases := 1
        expires := clockNow + 60 }
    retry := { step := 1, max := 1 } }

/-- `net.JoinHostPort`: brackets the host when it contains a colon. -/
def joinHostPort (host port : String) : String :=
  if host.contains ':' then "[" ++ host ++ "]:" ++ port
  else host ++ ":" ++ port

/-- Observable events of a session, in the order they are performed. -/
inductive Event
  | onSessionStart (denial : Option Err)
  | onSessionEnd
  | connectAttempt
  | connectSucceeded
  | writeOK
  | closeServerConn
  | relayStarted
  | acquireSemaphoreEv (cfg : AcquireSemaphoreWithRetryConfig)
      (boundedByConnectTimeout : Bool)
  | cancelLease
  | tlsDialEv (addr : String)
deriving DecidableEq, Repr

/-- Outcomes of the external calls made by `checkAccess`: the
auth-preference lookup (carrying `GetRequireSessionMFA`) and the
`Checker.CheckAccess` decision, which sees the MFA parameters. -/
structure AuthzEnv where
  authPref : Except Err Bool
  checkerResult : AccessMFAParams → Option Err

/-- `checkAccess`: authorization check for the connection about to be
established.  Returns the denial (if any) and the audit events emitted. -/
def checkAccess (env : AuthzEnv) (s : Session) : Option Err × List Event :=
  match env.authPref with
  | Except.error e => (some (traceWrap e), [])
  | Except.ok requireMFA =>
    match env.checkerResult
        { verified := s.mfaVerified != "", alwaysRequired := requireMFA } with
    | some e => (some (traceWrap e), [Event.onSessionStart (some e)])
    | none => (none, [])

/-- The outgoing backend connection as configured by `connect`:
`overrideSocket` records whether the Cloud SQL `clientOpt` replaced the
socket opened by the mysql client library with the pre-established TLS
connection (as opposed to merely setting the TLS config). -/
structure Conn where
  addr : String
  user : String
  password : String
  overrideSocket : Bool
deriving DecidableEq, Repr

/-- Outcomes of the external calls made by `connect`.
`splitHostPort` models `net.SplitHostPort` (`none` when the URI cannot be
split); `tlsDial` gives the result of `tls.Dial` at a given address;
`clientConnect` gives the result of `client.Connect(uri, user, password,
dbName)`.  `convertError` models `common.ConvertError` (repository code
outside the sampled file): it normalizes a driver error, and the engine
only inspects the classification of its result. -/
structure ConnectEnv where
  tlsConfig : Except Err Unit
  rdsAuthToken : Except Err String
  acquireSemaphore : Except Err Unit
  cloudSQLPassword : Except Err String
  azureAccessToken : Except Err String
  splitHostPort : String → Option (String × String)
  tlsDial : String → Except Err Unit
  clientConnect : String → String → String → String → Except Err Unit
  convertError : Err → Err

/-- The error message `connect` produces when an RDS connection attempt is
rejected as access denied: the Go format string
with `%v` the converted error, `%q` the database user, and the final `%v`
the agent's IAM policy. -/
def rdsAccessDeniedMsg (convMsg user policy : String) : String :=
  "Could not connect to database:\n\n  " ++ convMsg ++
  "\n\nMake sure that IAM auth is enabled for MySQL user \"" ++ user ++
  "\" and Teleport database\nagent's IAM policy has \"rds-connect\" permissions (note that IAM changes may\ntake a few minutes to propagate):\n\n" ++
  policy ++ "\n"

/-- The final `client.Connect` step of `connect`, including the rewriting
of RDS access-denied failures (lines 327-348 of the source). -/
def clientConnectStep (env : ConnectEnv) (s : Session)
    (user password : String) (overrideSocket : Bool) : Except Err Conn :=
  match env.clientConnect s.database.uri user password s.databaseName with
  | Except.error e =>
    if isAccessDenied (env.convertError e) && s.database.dbType == DBType.rds then
      Except.error (accessDeniedErr
        (rdsAccessDeniedMsg (env.convertError e).msg s.databaseUser
          s.database.iamPolicy))
    else
      Except.error (traceWrap e)
  | Except.ok _ =>
    Except.ok { addr := s.database.uri, user := user, password := password,
                overrideSocket := overrideSocket }

/-- Address used by the Cloud SQL side-channel `tls.Dial`: the URI with
port 3306 overridden to 3307, and otherwise (different port, or a URI
that does not split) the URI unchanged. -/
def cloudSQLDialAddr (env : ConnectEnv) (uri : String) : String :=
  match env.splitHostPort uri with
  | some (host, port) =>
    if port == "3306" then joinHostPort host "3307" else uri
  | none => uri

/-- `connect`: establishes the connection to the MySQL database, choosing
the credential path by backend kind.  Returns the connection (or error)
together with the events performed.  The `true` flag on
`acquireSemaphoreEv` records that the acquisition runs under the
`defaults.DatabaseConnectTimeout` context (`context.WithTimeout` at line
277); the lease-release defer appears as `cancelLease` on every exit path
after acquisition. -/
def connect (env : ConnectEnv) (clockNow : Nat) (s : Session) :
    Except Err Conn × List Event :=
  match env.tlsConfig with
  | Except.error e => (Except.error (traceWrap e), [])
  | Except.ok _ =>
    match s.database.dbType with
    | DBType.rds =>
      match env.rdsAuthToken with
      | Except.error e => (Except.error (traceWrap e), [])
      | Except.ok password =>
        (clientConnectStep env s s.databaseUser password false, [])
    | DBType.cloudSQL =>
      let cfg := makeAcquireSemaphoreConfig clockNow s
      let ev0 := [Event.acquireSemaphoreEv cfg true]
      match env.acquireSemaphore with
      | Except.error e => (Except.error (traceWrap e), ev0)
      | Except.ok _ =>
        match env.cloudSQLPassword with
        | Except.error e =>
          (Except.error (traceWrap e), ev0 ++ [Event.cancelLease])
        | Except.ok password =>
          if s.database.tlsMode != TLSMode.insecure then
            let addr := cloudSQLDialAddr env s.database.uri
            match env.tlsDial addr with
            | Except.error e =>
              (Except.error (traceWrap e),
               ev0 ++ [Event.tlsDialEv addr, Event.cancelLease])
            | Except.ok _ =>
              (clientConnectStep env s s.databaseUser password true,
               ev0 ++ [Event.tlsDialEv addr, Event.cancelLease])
          else
            (clientConnectStep env s s.databaseUser password false,
             ev0 ++ [Event.cancelLease])
    | DBType.azure =>
      match env.azureAccessToken with
      | Except.error e => (Except.error (traceWrap e), [])
      | Except.ok password =>
        let user := s.databaseUser ++ "@" ++ s.database.azureName
        (clientConnectStep env s user password false, [])
    | DBType.selfHosted =>
      (clientConnectStep env s s.databaseUser "" false, [])

/-- The relay-phase termination signals of the `select` in
`HandleConnection`: whichever of the client task, the server task, or
context cancellation finishes first. -/
inductive RelayOutcome
  | clientDone (e : Option Err)
  | serverDone (e : Option Err)
  | ctxCanceled
deriving DecidableEq, Repr

/-- Environment of a whole `HandleConnection` run. -/
structure HCEnv where
  authz : AuthzEnv
  connectEnv : ConnectEnv
  clockNow : Nat
  writeOKResult : Option Err
  relayOutcome : RelayOutcome

/-- `HandleConnection`: authorize, connect to the backend, signal success
to the client, audit, relay until a termination signal, with the deferred
backend-connection close and deferred session-end audit (defers run in
LIFO order).  Returns the method's error (or `none`) and the event
trace. -/
def handleConnection (env : HCEnv) (s : Session) : Option Err × List Event :=
  match checkAccess env.authz s with
  | (some e, aev) => (some e, aev)
  | (none, aev) =>
    match connect env.connectEnv env.clockNow s with
    | (Except.error e, cev) =>
      let ev := aev ++ [Event.connectAttempt] ++ cev
      if isLimitExceeded e then
        (some (limitExceededErr
          "could not connect to the database, please try again later"), ev)
      else
        (some (traceWrap e), ev)
    | (Except.ok _, cev) =>
      let ev := aev ++ [Event.connectAttempt] ++ cev ++ [Event.connectSucceeded]
      match env.writeOKResult with
      | some e => (some (traceWrap e), ev ++ [Event.closeServerConn])
      | none =>
        let ev := ev ++ [Event.writeOK, Event.onSessionStart none,
                         Event.relayStarted]
        match env.relayOutcome with
        | RelayOutcome.clientDone _ =>
          (none, ev ++ [Event.onSessionEnd, Event.closeServerConn])
        | RelayOutcome.serverDone _ =>
          (none, ev ++ [Event.onSessionEnd, Event.closeServerConn])
        | RelayOutcome.ctxCanceled =>
          (none, ev ++ [Event.onSessionEnd, Event.closeServerConn])

/-- Modelled from the spec: the client-direction protocol codec
(`lib/srv/db/mysql/protocol`, not among the sampled files).  A decoded
protocol unit is a tagged variant over statement execution (`Query`),
re-authentication (`ChangeUser`), termination (`Quit`) and everything
else, and it retains the original encoding, returned by
`packet.Bytes()`. -/
inductive Packet
  | query (q : String) (raw : List Nat)
  | changeUser (user : String) (raw : List Nat)
  | quit (raw : List Nat)
  | other (raw : List Nat)
deriving DecidableEq, Repr

/-- Modelled from the spec: `packet.Bytes()` returns the unit's original
encoding, retained by the codec. -/
def Packet.bytes : Packet → List Nat
  | Packet.query _ raw => raw
  | Packet.changeUser _ raw => raw
  | Packet.quit raw => raw
  | Packet.other raw => raw

/-- One iteration's outcome of `protocol.ParsePacket` on the client
connection: a decoded unit, or a read error, flagged by whether
`utils.IsOKNetworkError` classifies it as a clean close. -/
inductive ReadResult
  | ok (p : Packet)
  | readErr (okNetwork : Bool) (e : Err)
deriving DecidableEq, Repr

/-- Observable outcome of the client-to-backend relay task: the byte
packets written to the backend, the errors sent on the task's completion
channel (`clientErrCh`), and the statement texts audited via `OnQuery`,
each in order. -/
structure RelayOut where
  writes : List (List Nat)
  sentErrs : List Err
  queries : List String
deriving DecidableEq, Repr

/-- `receiveFromClient`: the client-to-backend relay loop.  `input` is the
successive outcomes of `protocol.ParsePacket`; `wr n` is the outcome of
the `n`-th `protocol.WritePacket` call.  A clean client close ends the
task silently; any other read error is sent on the channel; a `Query` is
audited and forwarded; a `ChangeUser` is rejected and ends the task
without forwarding; a `Quit` ends the task without forwarding and without
error; anything else is forwarded byte-for-byte. -/
def receiveFromClient (wr : Nat → Option Err) :
    List ReadResult → Nat → RelayOut
  | [], _ => ⟨[], [], []⟩
  | ReadResult.readErr okNet e :: _, _ =>
    if okNet then ⟨[], [], []⟩ else ⟨[], [e], []⟩
  | ReadResult.ok p :: rest, n =>
    match p with
    | Packet.changeUser _ _ => ⟨[], [], []⟩
    | Packet.quit _ => ⟨[], [], []⟩
    | Packet.query q raw =>
      match wr n with
      | some e => ⟨[], [e], [q]⟩
      | none =>
        let out := receiveFromClient wr rest (n + 1)
        ⟨raw :: out.writes, out.sentErrs, q :: out.queries⟩
    | Packet.other raw =>
      match wr n with
      | some e => ⟨[], [e], []⟩
      | none =>
        let out := receiveFromClient wr rest (n + 1)
        ⟨raw :: out.writes, out.sentErrs, out.queries⟩

/-- `true` exactly on session-start audit events. -/
def isSessionStartEv : Event → Bool
  | Event.onSessionStart _ => true
  | _ => false

/-- No protocol `ready` reply before the backend connect has succeeded:
scanning the trace from the start, a `writeOK` event is only reached
after a `connectSucceeded` event. -/
def readyAfterConnect : List Event → Prop
  | [] => True
  | Event.connectSucceeded :: _ => True
  | Event.writeOK :: _ => False
  | _ :: rest => readyAfterConnect rest

/-- `true` exactly on the events `connect` can emit: semaphore
acquisition, lease cancellation, side-channel TLS dial. -/
def isConnPhaseEv : Event → Bool
  | Event.acquireSemaphoreEv _ _ => true
  | Event.cancelLease => true
  | Event.tlsDialEv _ => true
  | _ => false

/-! ### Concrete example inputs (used to instantiate the theorems) -/

/-- A self-hosted example database. -/
def exDatabase : Database :=
  { dbType := DBType.selfHosted, name := "db0", uri := "host:3306",
    tlsMode := TLSMode.verifyFull, iamPolicy := "iam-policy-doc",
    azureName := "az0" }

/-- An example session against `exDatabase`. -/
def exSession : Session :=
  { database := exDatabase, databaseUser := "alice",
    databaseName := "main", mfaVerified := "" }

/-- An example denial error. -/
def exDenialErr : Err := ⟨ErrKind.accessDenied, "access to db denied"⟩

/-- A connect environment in which every external call succeeds. -/
def exConnectEnvOK : ConnectEnv :=
  { tlsConfig := Except.ok ()
    rdsAuthToken := Except.ok "rds-token"
    acquireSemaphore := Except.ok ()
    cloudSQLPassword := Except.ok "otp"
    azureAccessToken := Except.ok "az-token"
    splitHostPort := fun u =>
      if u == "host:3306" then some ("host", "3306") else none
    tlsDial := fun _ => Except.ok ()
    clientConnect := fun _ _ _ _ => Except.ok ()
    convertError := fun e => e }

/-- An authorization environment that grants access. -/
def exAuthzOK : AuthzEnv :=
  { authPref := Except.ok false, checkerResult := fun _ => none }

/-- An authorization environment whose checker denies with
`exDenialErr`. -/
def exAuthzDenied : AuthzEnv :=
  { authPref := Except.ok false, checkerResult := fun _ => some exDenialErr }

/-- A full environment in which the whole session succeeds. -/
def exHCEnvOK : HCEnv :=
  { authz := exAuthzOK, connectEnv := exConnectEnvOK, clockNow := 0,
    writeOKResult := none, relayOutcome := RelayOutcome.ctxCanceled }

/-- A full environment in which authorization passes but the backend
connection attempt fails (the TLS-config lookup errors out). -/
def exHCEnvConnectFail : HCEnv :=
  { exHCEnvOK with
    connectEnv :=
      { exConnectEnvOK with
        tlsConfig := Except.error ⟨ErrKind.other, "tls config broken"⟩ } }

/-- A full environment in which the backend connection attempt fails with
a limit-exceeded error. -/
def exHCEnvLimit : HCEnv :=
  { exHCEnvOK with
    connectEnv :=
      { exConnectEnvOK with
        tlsConfig := Except.error ⟨ErrKind.limitExceeded, "too many"⟩ } }

/-- A full environment in which writing the ready reply fails. -/
def exHCEnvWriteFail : HCEnv :=
  { exHCEnvOK with writeOKResult := some ⟨ErrKind.other, "broken pipe"⟩ }

/-- The backend connection `connect` builds in `exConnectEnvOK` for
`exSession`. -/
def exConnOK : Conn :=
  { addr := "host:3306", user := "alice", password := "",
    overrideSocket := false }

/-- `exDatabase` as a Cloud SQL instance. -/
def exCloudDatabase : Database := { exDatabase with dbType := DBType.cloudSQL }

/-- A session against `exCloudDatabase`. -/
def exCloudSession : Session := { exSession with database := exCloudDatabase }

/-- `exDatabase` as an RDS instance. -/
def exRDSDatabase : Database := { exDatabase with dbType := DBType.rds }

/-- A session against `exRDSDatabase`. -/
def exRDSSession : Session := { exSession with database := exRDSDatabase }

/-- A connect environment whose backend rejects the connection with an
error that converts to access denied. -/
def exConnectEnvDenied : ConnectEnv :=
  { exConnectEnvOK with
    clientConnect := fun _ _ _ _ =>
      Except.error ⟨ErrKind.accessDenied, "driver rejected"⟩ }

/-! ### Helper lemmas about the traces of the embedded functions -/

/-- When the authorization check passes, it emits no events. -/
lemma checkAccess_pass (env : AuthzEnv) (s : Session)
    (h : (checkAccess env s).1 = none) : checkAccess env s = (none, []) := by
  unfold checkAccess at *
  cases ha : env.authPref with
  | error e => simp [ha] at h
  | ok b =>
    simp only [ha] at h ⊢
    cases hc : env.checkerResult
        { verified := s.mfaVerified != "", alwaysRequired := b } with
    | none => simp [hc]
    | some e => simp [hc] at h

/-- The trace of the authorization check is empty or a single
session-start audit event carrying the denial. -/
lemma checkAccess_snd_cases (env : AuthzEnv) (s : Session) :
    (checkAccess env s).2 = [] ∨
    ∃ e, (checkAccess env s).2 = [Event.onSessionStart (some e)] := by
  unfold checkAccess
  cases ha : env.authPref with
  | error e => simp [ha]
  | ok b =>
    simp only [ha]
    cases hc : env.checkerResult
        { verified := s.mfaVerified != "", alwaysRequired := b } with
    | none => simp [hc]
    | some e => simp [hc]

/-- Every event emitted by `connect` is a semaphore acquisition, a lease
cancellation, or a side-channel TLS dial. -/
lemma connect_trace_conn_phase (env : ConnectEnv) (now : Nat) (s : Session) :
    ∀ x ∈ (connect env now s).2, isConnPhaseEv x = true := by
  unfold connect
  repeat' split
  all_goals try cases htd : env.tlsDial (cloudSQLDialAddr env s.database.uri)
  all_goals simp [isConnPhaseEv, *]

/-- An event that is not connection-phase never occurs in `connect`'s
trace. -/
lemma not_mem_connect_trace (env : ConnectEnv) (now : Nat) (s : Session)
    (x : Event) (hx : isConnPhaseEv x = false) :
    x ∉ (connect env now s).2 := by
  intro hm
  have := connect_trace_conn_phase env now s x hm
  rw [hx] at this
  exact Bool.false_ne_true this

/-- A trace with no `writeOK` event satisfies `readyAfterConnect`. -/
lemma readyAfterConnect_of_not_mem (l : List Event)
    (h : Event.writeOK ∉ l) : readyAfterConnect l := by
  induction l with
  | nil => trivial
  | cons a rest ih =>
    have ha : a ≠ Event.writeOK := fun e => h (by simp [e])
    have hrest : Event.writeOK ∉ rest := fun m => h (List.mem_cons_of_mem _ m)
    cases a <;> first
      | exact absurd rfl ha
      | exact ih hrest
      | trivial

/-- A trace that reaches `connectSucceeded` before any `writeOK` satisfies
`readyAfterConnect`, whatever follows. -/
lemma readyAfterConnect_append (l m : List Event)
    (h : Event.writeOK ∉ l) :
    readyAfterConnect (l ++ Event.connectSucceeded :: m) := by
  induction l with
  | nil => trivial
  | cons a rest ih =>
    have ha : a ≠ Event.writeOK := fun e => h (by simp [e])
    have hrest : Event.writeOK ∉ rest := fun mm => h (List.mem_cons_of_mem _ mm)
    cases a <;> first
      | exact absurd rfl ha
      | exact ih hrest
      | trivial

/-- `connect`'s trace contains no session-start audit event. -/
lemma countP_sessionStart_connect (env : ConnectEnv) (now : Nat) (s : Session) :
    List.countP isSessionStartEv (connect env now s).2 = 0 := by
  rw [List.countP_eq_zero]
  intro a ha
  have h := connect_trace_conn_phase env now s a ha
  cases a <;> simp_all [isConnPhaseEv, isSessionStartEv]

/-- A denial by the access checker makes `checkAccess` return the denial
and emit exactly the session-start audit event carrying it. -/
lemma checkAccess_denied (env : AuthzEnv) (s : Session) (b : Bool) (e : Err)
    (hb : env.authPref = Except.ok b)
    (he : env.checkerResult
      { verified := s.mfaVerified != "", alwaysRequired := b } = some e) :
    checkAccess env s = (some e, [Event.onSessionStart (some e)]) := by
  unfold checkAccess
  simp [hb, he, traceWrap]

/-! ### Claims -/

/-- C1: for every session that passes authorization (indeed for every
session), `HandleConnection` sends the protocol ready (OK) reply to the
client only after the backend connection attempt has returned
successfully: in the event trace, a `writeOK` event can only be reached
after a `connectSucceeded` event, so the client never observes proxy
readiness before the backend is reachable. -/
theorem handleConnection_ready_only_after_connect (env : HCEnv) (s : Session) :
    readyAfterConnect (handleConnection env s).2 := by
  unfold handleConnection
  rcases hca : checkAccess env.authz s with ⟨o, aev⟩
  try rw [hca]
  have haev : Event.writeOK ∉ aev := by
    rcases checkAccess_snd_cases env.authz s with h | ⟨e, h⟩ <;>
      rw [hca] at h <;> simp at h <;> simp [h]
  cases o with
  | some e => exact readyAfterConnect_of_not_mem aev haev
  | none =>
    rcases hc : connect env.connectEnv env.clockNow s with ⟨r, cev⟩
    try rw [hc]
    have hcev : Event.writeOK ∉ cev := by
      have h := not_mem_connect_trace env.connectEnv env.clockNow s
        Event.writeOK rfl
      rw [hc] at h; exact h
    have hml : Event.writeOK ∉ aev ++ [Event.connectAttempt] ++ cev := by
      simp only [List.mem_append, List.mem_singleton]
      push_neg
      exact ⟨⟨haev, by simp⟩, hcev⟩
    cases r with
    | error e =>
      by_cases hle : isLimitExceeded e <;>
        simp only [hle, if_true, if_false, Bool.false_eq_true] <;>
        exact readyAfterConnect_of_not_mem _ hml
    | ok c =>
      cases env.writeOKResult with
      | some e2 =>
        have h := readyAfterConnect_append
          (aev ++ [Event.connectAttempt] ++ cev) [Event.closeServerConn] hml
        simpa [List.append_assoc] using h
      | none =>
        cases env.relayOutcome <;>
        · have h := readyAfterConnect_append
            (aev ++ [Event.connectAttempt] ++ cev)
            ([Event.writeOK, Event.onSessionStart none, Event.relayStarted] ++
              [Event.onSessionEnd, Event.closeServerConn]) hml
          simpa [List.append_assoc] using h

/-- C2 counterexample: in a session that passes authorization but whose
backend connection attempt fails, `OnSessionStart` is not called at all,
so it is not called exactly once for every session. -/
theorem handleConnection_sessionStart_not_always_once :
    List.countP isSessionStartEv
      (handleConnection exHCEnvConnectFail exSession).2 ≠ 1 := by
  decide

/-- C2 (amended): `OnSessionStart` is called at most once per session;
when the authorization checker denies access it is called exactly once,
with the denial error, `HandleConnection` returns that error, and no
backend connection attempt is made (the trace is exactly the one
session-start audit event). -/
theorem handleConnection_sessionStart_at_most_once (env : HCEnv) (s : Session) :
    List.countP isSessionStartEv (handleConnection env s).2 ≤ 1 ∧
    (∀ b e, env.authz.authPref = Except.ok b →
      env.authz.checkerResult
        { verified := s.mfaVerified != "", alwaysRequired := b } = some e →
      handleConnection env s = (some e, [Event.onSessionStart (some e)])) := by
  constructor
  · unfold handleConnection
    rcases hca : checkAccess env.authz s with ⟨o, aev⟩
    try rw [hca]
    cases o with
    | some e =>
      rcases checkAccess_snd_cases env.authz s with h | ⟨e2, h⟩ <;>
        rw [hca] at h <;> simp at h <;> simp [h, isSessionStartEv]
    | none =>
      have haev0 : aev = [] := by
        have h := checkAccess_pass env.authz s (by rw [hca])
        have h2 := hca.symm.trans h
        simpa using h2
      subst haev0
      rcases hc : connect env.connectEnv env.clockNow s with ⟨r, cev⟩
      try rw [hc]
      have hcev0 : List.countP isSessionStartEv cev = 0 := by
        have h := countP_sessionStart_connect env.connectEnv env.clockNow s
        rw [hc] at h; exact h
      cases r with
      | error e =>
        by_cases hle : isLimitExceeded e <;>
          simp [hle, List.countP_append, List.countP_cons, hcev0,
            isSessionStartEv]
      | ok c =>
        cases env.writeOKResult with
        | some e2 =>
          simp [List.countP_append, List.countP_cons, hcev0, isSessionStartEv]
        | none =>
          cases env.relayOutcome <;>
            simp [List.countP_append, List.countP_cons, hcev0,
              isSessionStartEv]
  · intro b e hb he
    have h := checkAccess_denied env.authz s b e hb he
    unfold handleConnection
    rw [h]

/-- C2 witness: in the concrete denied session the theorem yields the
denial behavior. -/
theorem handleConnection_sessionStart_witness :
    handleConnection { exHCEnvOK with authz := exAuthzDenied } exSession =
      (some exDenialErr, [Event.onSessionStart (some exDenialErr)]) :=
  (handleConnection_sessionStart_at_most_once
    { exHCEnvOK with authz := exAuthzDenied } exSession).2 false exDenialErr
    rfl rfl

/-- C3: in the client-to-backend relay loop, a decoded ChangeUser
(re-authentication) unit is never written to the backend and terminates
the client-read task immediately, whatever follows it; a decoded Quit
(termination) unit ends the task without forwarding anything further and
without sending an error on the completion channel. -/
theorem receiveFromClient_changeUser_quit (wr : Nat → Option Err)
    (u : String) (b qb : List Nat) (rest : List ReadResult) (n : Nat) :
    receiveFromClient wr (ReadResult.ok (Packet.changeUser u b) :: rest) n =
      ⟨[], [], []⟩ ∧
    receiveFromClient wr (ReadResult.ok (Packet.quit qb) :: rest) n =
      ⟨[], [], []⟩ :=
  ⟨rfl, rfl⟩

/-- C8: every byte packet the client-to-backend relay writes to the
backend is exactly the retained original encoding of some received unit,
and a forwarded statement-execution unit in particular is written
byte-identical to the unit received. -/
theorem receiveFromClient_roundtrip (wr : Nat → Option Err)
    (input : List ReadResult) (n : Nat) :
    (∀ w ∈ (receiveFromClient wr input n).writes,
      ∃ p, ReadResult.ok p ∈ input ∧ w = p.bytes) ∧
    (∀ q raw rest, wr n = none →
      (receiveFromClient wr (ReadResult.ok (Packet.query q raw) :: rest)
          n).writes =
        (Packet.query q raw).bytes ::
          (receiveFromClient wr rest (n + 1)).writes) := by
  constructor
  · induction input generalizing n with
    | nil => simp [receiveFromClient]
    | cons i rest ih =>
      cases i with
      | readErr okNet e =>
        cases okNet <;> simp [receiveFromClient]
      | ok p =>
        cases p with
        | changeUser u raw => simp [receiveFromClient]
        | quit raw => simp [receiveFromClient]
        | query q raw =>
          cases hw : wr n with
          | some e => simp [receiveFromClient, hw]
          | none =>
            intro w hmem
            simp [receiveFromClient, hw] at hmem
            rcases hmem with h | h
            · exact ⟨Packet.query q raw, by simp, by simp [h, Packet.bytes]⟩
            · rcases ih (n + 1) w h with ⟨p, hp, hb⟩
              exact ⟨p, by simp [hp], hb⟩
        | other raw =>
          cases hw : wr n with
          | some e => simp [receiveFromClient, hw]
          | none =>
            intro w hmem
            simp [receiveFromClient, hw] at hmem
            rcases hmem with h | h
            · exact ⟨Packet.other raw, by simp, by simp [h, Packet.bytes]⟩
            · rcases ih (n + 1) w h with ⟨p, hp, hb⟩
              exact ⟨p, by simp [hp], hb⟩
  · intro q raw rest hw
    simp [receiveFromClient, hw, Packet.bytes]

/-- C8 witness: a concrete forwarded statement reaches the backend
byte-identical. -/
theorem receiveFromClient_roundtrip_witness :
    (receiveFromClient (fun _ => none)
        [ReadResult.ok (Packet.query "SELECT 1" [3, 0, 0, 0, 3, 83])]
        0).writes =
      (Packet.query "SELECT 1" [3, 0, 0, 0, 3, 83]).bytes ::
        (receiveFromClient (fun _ => none) [] 1).writes :=
  (receiveFromClient_roundtrip (fun _ => none)
      [ReadResult.ok (Packet.query "SELECT 1" [3, 0, 0, 0, 3, 83])] 0).2
    "SELECT 1" [3, 0, 0, 0, 3, 83] [] rfl

/-- C5: when the backend connection attempt fails with an error
classified as limit-exceeded, `HandleConnection` returns a fresh
limit-exceeded error carrying the generic try-again-later message; every
other connection failure is returned with its own classification, which
is not limit-exceeded, so the rate-limited case is distinguishable. -/
theorem handleConnection_limitExceeded (env : HCEnv) (s : Session)
    (e : Err) (cev : List Event)
    (hca : (checkAccess env.authz s).1 = none)
    (hc : connect env.connectEnv env.clockNow s = (Except.error e, cev)) :
    (isLimitExceeded e = true →
      (handleConnection env s).1 = some (limitExceededErr
        "could not connect to the database, please try again later")) ∧
    (isLimitExceeded e = false →
      (handleConnection env s).1 = some e ∧
      e.kind ≠ ErrKind.limitExceeded) := by
  have h := checkAccess_pass env.authz s hca
  constructor
  · intro hle
    unfold handleConnection
    rw [h, hc]
    simp [hle]
  · intro hle
    constructor
    · unfold handleConnection
      rw [h, hc]
      simp [hle, traceWrap]
    · simpa [isLimitExceeded] using hle

/-- C5 witness: the concrete rate-limited failure yields the generic
try-again-later limit-exceeded error. -/
theorem handleConnection_limitExceeded_witness :
    (handleConnection exHCEnvLimit exSession).1 = some (limitExceededErr
      "could not connect to the database, please try again later") :=
  (handleConnection_limitExceeded exHCEnvLimit exSession
    ⟨ErrKind.limitExceeded, "too many"⟩ [] rfl rfl).1 rfl

/-- C7: once the relay phase can begin (authorization passed, backend
connected, ready reply written), `HandleConnection` returns `nil`
whichever of the three termination signals occurs first — client task
completion (with or without a relay I/O error), server task completion,
or context cancellation — relay errors are never returned, and on every
exit path on which the backend connection was established it is also
closed. -/
theorem handleConnection_relay_termination (env : HCEnv) (s : Session)
    (c : Conn) (cev : List Event)
    (hca : (checkAccess env.authz s).1 = none)
    (hc : connect env.connectEnv env.clockNow s = (Except.ok c, cev))
    (hok : env.writeOKResult = none) :
    (∀ ro : RelayOutcome,
      (handleConnection { env with relayOutcome := ro } s).1 = none ∧
      Event.closeServerConn ∈
        (handleConnection { env with relayOutcome := ro } s).2) ∧
    (∀ env2 : HCEnv,
      Event.connectSucceeded ∈ (handleConnection env2 s).2 →
      Event.closeServerConn ∈ (handleConnection env2 s).2) := by
  have h := checkAccess_pass env.authz s hca
  constructor
  · intro ro
    unfold handleConnection
    rw [show ({ env with relayOutcome := ro } : HCEnv).authz = env.authz
          from rfl,
        show ({ env with relayOutcome := ro } : HCEnv).connectEnv =
          env.connectEnv from rfl,
        show ({ env with relayOutcome := ro } : HCEnv).clockNow =
          env.clockNow from rfl,
        show ({ env with relayOutcome := ro } : HCEnv).writeOKResult =
          env.writeOKResult from rfl,
        h, hc, hok]
    cases ro <;> simp
  · intro env2
    unfold handleConnection
    rcases hca2 : checkAccess env2.authz s with ⟨o, aev⟩
    try rw [hca2]
    have haev : Event.connectSucceeded ∉ aev := by
      rcases checkAccess_snd_cases env2.authz s with h2 | ⟨e2, h2⟩ <;>
        rw [hca2] at h2 <;> simp at h2 <;> simp [h2]
    cases o with
    | some e => intro hmem; exact absurd hmem haev
    | none =>
      rcases hc2 : connect env2.connectEnv env2.clockNow s with ⟨r, cev2⟩
      try rw [hc2]
      have hcev : Event.connectSucceeded ∉ cev2 := by
        have h2 := not_mem_connect_trace env2.connectEnv env2.clockNow s
          Event.connectSucceeded rfl
        rw [hc2] at h2; exact h2
      cases r with
      | error e =>
        by_cases hle : isLimitExceeded e <;>
          simp [hle, List.mem_append, haev, hcev]
      | ok c2 =>
        cases env2.writeOKResult with
        | some e2 => intro _; simp
        | none => cases env2.relayOutcome <;> (intro _; simp)

/-- C7 witness: a relay I/O error reported by the client task does not
become `HandleConnection`'s error. -/
theorem handleConnection_relay_termination_witness :
    (handleConnection
        { exHCEnvOK with relayOutcome :=
            RelayOutcome.clientDone (some ⟨ErrKind.other, "io error"⟩) }
        exSession).1 = none :=
  ((handleConnection_relay_termination exHCEnvOK exSession exConnOK []
      rfl rfl rfl).1
    (RelayOutcome.clientDone (some ⟨ErrKind.other, "io error"⟩))).1

/-- C9: if writing the ready (OK) reply fails after the backend
connection was established, `HandleConnection` returns that write error,
neither `OnSessionStart` nor `OnSessionEnd` is emitted, the relay tasks
are never started, and the backend connection is still closed by the
deferred close. -/
theorem handleConnection_writeOK_failure (env : HCEnv) (s : Session)
    (c : Conn) (cev : List Event) (e : Err)
    (hca : (checkAccess env.authz s).1 = none)
    (hc : connect env.connectEnv env.clockNow s = (Except.ok c, cev))
    (he : env.writeOKResult = some e) :
    (handleConnection env s).1 = some e ∧
    List.countP isSessionStartEv (handleConnection env s).2 = 0 ∧
    Event.onSessionEnd ∉ (handleConnection env s).2 ∧
    Event.relayStarted ∉ (handleConnection env s).2 ∧
    Event.closeServerConn ∈ (handleConnection env s).2 := by
  have h := checkAccess_pass env.authz s hca
  have hcev0 : List.countP isSessionStartEv cev = 0 := by
    have h2 := countP_sessionStart_connect env.connectEnv env.clockNow s
    rw [hc] at h2; exact h2
  have hend : Event.onSessionEnd ∉ cev := by
    have h2 := not_mem_connect_trace env.connectEnv env.clockNow s
      Event.onSessionEnd rfl
    rw [hc] at h2; exact h2
  have hrelay : Event.relayStarted ∉ cev := by
    have h2 := not_mem_connect_trace env.connectEnv env.clockNow s
      Event.relayStarted rfl
    rw [hc] at h2; exact h2
  unfold handleConnection
  rw [h, hc, he]
  refine ⟨rfl, ?_, ?_, ?_, ?_⟩
  · simp [List.countP_append, List.countP_cons, hcev0, isSessionStartEv]
  · simp [List.mem_append, hend]
  · simp [List.mem_append, hrelay]
  · simp

/-- C9 witness: the concrete failed ready-reply write is returned as the
session's error. -/
theorem handleConnection_writeOK_failure_witness :
    (handleConnection exHCEnvWriteFail exSession).1 =
      some ⟨ErrKind.other, "broken pipe"⟩ :=
  (handleConnection_writeOK_failure exHCEnvWriteFail exSession exConnOK []
    ⟨ErrKind.other, "broken pipe"⟩ rfl rfl rfl).1

/-- C4 counterexample: the semaphore kind the engine actually requests is
the literal `gcp-mysql-token`, not `provider-token`. -/
theorem makeAcquireSemaphoreConfig_kind_not_provider_token :
    (makeAcquireSemaphoreConfig 0 exSession).request.semaphoreKind ≠
      "provider-token" := by
  decide

/-- C4 (amended): every rotating-password (Cloud SQL) connection acquires
a lease whose request has kind `gcp-mysql-token`, name the database name
joined with the database user, `maxLeases` 1 and expiry one minute after
the current clock time, using a linear retry with step 1 second capped at
1 second, and the acquisition runs under the connection-timeout
context. -/
theorem makeAcquireSemaphoreConfig_spec (env : ConnectEnv) (now : Nat)
    (s : Session)
    (htls : env.tlsConfig = Except.ok ())
    (hdb : s.database.dbType = DBType.cloudSQL) :
    makeAcquireSemaphoreConfig now s =
      { request :=
          { semaphoreKind := "gcp-mysql-token"
            semaphoreName := s.database.name ++ "-" ++ s.databaseUser
            maxLeases := 1
            expires := now + 60 }
        retry := { step := 1, max := 1 } } ∧
    Event.acquireSemaphoreEv (makeAcquireSemaphoreConfig now s) true ∈
      (connect env now s).2 := by
  refine ⟨rfl, ?_⟩
  unfold connect
  simp only [htls, hdb]
  repeat' split
  all_goals try cases htd : env.tlsDial (cloudSQLDialAddr env s.database.uri)
  all_goals simp [*]

/-- C4 witness: the lease-acquisition request appears in the concrete
Cloud SQL session's connect trace. -/
theorem makeAcquireSemaphoreConfig_spec_witness :
    Event.acquireSemaphoreEv (makeAcquireSemaphoreConfig 7 exCloudSession)
        true ∈
      (connect exConnectEnvOK 7 exCloudSession).2 :=
  (makeAcquireSemaphoreConfig_spec exConnectEnvOK 7 exCloudSession rfl rfl).2

/-- C6: an IAM-token (RDS) connection failure whose converted error is
access denied is rewritten to an access-denied error whose message names
the database user and the agent's required IAM policy; the same failure
on any non-RDS backend is returned wrapped, unchanged: in general at the
final connection step for every non-RDS backend kind, and at `connect`
level for the self-hosted, Azure, and Cloud SQL (insecure and secure)
paths. -/
theorem connect_rds_accessDenied_rewrite (env : ConnectEnv) (now : Nat)
    (s : Session) (e : Err)
    (hconv : isAccessDenied (env.convertError e) = true)
    (htls : env.tlsConfig = Except.ok ()) :
    (∀ tok, s.database.dbType = DBType.rds →
      env.rdsAuthToken = Except.ok tok →
      env.clientConnect s.database.uri s.databaseUser tok s.databaseName =
        Except.error e →
      (connect env now s).1 = Except.error (accessDeniedErr
        (rdsAccessDeniedMsg (env.convertError e).msg s.databaseUser
          s.database.iamPolicy))) ∧
    (∀ m p, ∃ pre mid post,
      (rdsAccessDeniedMsg m s.databaseUser p).data =
        pre ++ s.databaseUser.data ++ mid ++ p.data ++ post) ∧
    (∀ user password ov, s.database.dbType ≠ DBType.rds →
      env.clientConnect s.database.uri user password s.databaseName =
        Except.error e →
      clientConnectStep env s user password ov =
        Except.error (traceWrap e)) ∧
    (s.database.dbType = DBType.selfHosted →
      env.clientConnect s.database.uri s.databaseUser "" s.databaseName =
        Except.error e →
      (connect env now s).1 = Except.error (traceWrap e)) ∧
    (∀ tok, s.database.dbType = DBType.azure →
      env.azureAccessToken = Except.ok tok →
      env.clientConnect s.database.uri
          (s.databaseUser ++ "@" ++ s.database.azureName) tok
          s.databaseName = Except.error e →
      (connect env now s).1 = Except.error (traceWrap e)) ∧
    (∀ pw, s.database.dbType = DBType.cloudSQL →
      env.acquireSemaphore = Except.ok () →
      env.cloudSQLPassword = Except.ok pw →
      env.clientConnect s.database.uri s.databaseUser pw s.databaseName =
        Except.error e →
      (s.database.tlsMode = TLSMode.insecure →
        (connect env now s).1 = Except.error (traceWrap e)) ∧
      (s.database.tlsMode ≠ TLSMode.insecure →
        env.tlsDial (cloudSQLDialAddr env s.database.uri) = Except.ok () →
        (connect env now s).1 = Except.error (traceWrap e))) := by
  refine ⟨?_, ?_, ?_, ?_, ?_, ?_⟩
  · intro tok hdb htok hcc
    unfold connect clientConnectStep
    simp [htls, hdb, htok, hcc, hconv]
  · intro m p
    refine ⟨("Could not connect to database:\n\n  " ++ m ++
        "\n\nMake sure that IAM auth is enabled for MySQL user \"").data,
      ("\" and Teleport database\nagent's IAM policy has \"rds-connect\" permissions (note that IAM changes may\ntake a few minutes to propagate):\n\n").data,
      "\n".data, ?_⟩
    unfold rdsAccessDeniedMsg
    simp only [String.data_append, List.append_assoc]
  · intro user password ov hne hcc
    unfold clientConnectStep
    simp [hcc, hne]
  · intro hdb hcc
    unfold connect clientConnectStep
    simp [htls, hdb, hcc]
  · intro tok hdb htok hcc
    unfold connect clientConnectStep
    simp [htls, hdb, htok, hcc]
  · intro pw hdb hsem hpw hcc
    constructor
    · intro hmode
      unfold connect clientConnectStep
      simp [htls, hdb, hsem, hpw, hmode, hcc]
    · intro hmode htd
      have hmodeb : (s.database.tlsMode != TLSMode.insecure) = true := by
        simp [bne_iff_ne, hmode]
      unfold connect clientConnectStep
      simp [htls, hdb, hsem, hpw, hmodeb, htd, hcc]

/-- C6 witness: the concrete RDS access-denied failure is rewritten to
the actionable access-denied message. -/
theorem connect_rds_accessDenied_rewrite_witness :
    (connect exConnectEnvDenied 0 exRDSSession).1 = Except.error
      (accessDeniedErr (rdsAccessDeniedMsg "driver rejected" "alice"
        "iam-policy-doc")) :=
  (connect_rds_accessDenied_rewrite exConnectEnvDenied 0 exRDSSession
    ⟨ErrKind.accessDenied, "driver rejected"⟩ rfl rfl).1 "rds-token" rfl rfl
    rfl

/-- C10: in the secure Cloud SQL path, the side-channel TLS handshake is
addressed to port 3307 exactly when the backend URI's port is `3306`; for
any other port, or when the URI does not split into host and port, the
TLS dial uses the original URI; and when the TLS dial and the client
connect succeed, the resulting connection has its socket overridden by
the TLS connection. -/
theorem connect_cloudSQL_port_override (env : ConnectEnv) (now : Nat)
    (s : Session) (pw : String)
    (hdb : s.database.dbType = DBType.cloudSQL)
    (htls : env.tlsConfig = Except.ok ())
    (hsem : env.acquireSemaphore = Except.ok ())
    (hpw : env.cloudSQLPassword = Except.ok pw)
    (hmode : s.database.tlsMode ≠ TLSMode.insecure) :
    (∀ a, Event.tlsDialEv a ∈ (connect env now s).2 ↔
      a = cloudSQLDialAddr env s.database.uri) ∧
    (∀ host, env.splitHostPort s.database.uri = some (host, "3306") →
      cloudSQLDialAddr env s.database.uri = joinHostPort host "3307") ∧
    (∀ host port, env.splitHostPort s.database.uri = some (host, port) →
      port ≠ "3306" →
      cloudSQLDialAddr env s.database.uri = s.database.uri) ∧
    (env.splitHostPort s.database.uri = none →
      cloudSQLDialAddr env s.database.uri = s.database.uri) ∧
    (env.tlsDial (cloudSQLDialAddr env s.database.uri) = Except.ok () →
      env.clientConnect s.database.uri s.databaseUser pw s.databaseName =
        Except.ok () →
      (connect env now s).1 = Except.ok
        { addr := s.database.uri, user := s.databaseUser, password := pw,
          overrideSocket := true }) := by
  have hmodeb : (s.database.tlsMode != TLSMode.insecure) = true := by
    simp [bne_iff_ne, hmode]
  refine ⟨?_, ?_, ?_, ?_, ?_⟩
  · intro a
    unfold connect
    simp only [htls, hdb, hsem, hpw, hmodeb]
    cases htd : env.tlsDial (cloudSQLDialAddr env s.database.uri) <;>
      simp [htd]
  · intro host hsp
    unfold cloudSQLDialAddr
    rw [hsp]
    simp
  · intro host port hsp hne
    unfold cloudSQLDialAddr
    rw [hsp]
    simp [hne]
  · intro hsp
    unfold cloudSQLDialAddr
    rw [hsp]
  · intro htd hcc
    unfold connect clientConnectStep
    simp [htls, hdb, hsem, hpw, hmodeb, htd, hcc]

/-- C10 witness: for the concrete Cloud SQL session whose URI has port
3306, the TLS dial targets port 3307 and the resulting connection has the
overridden socket. -/
theorem connect_cloudSQL_port_override_witness :
    (Event.tlsDialEv (joinHostPort "host" "3307") ∈
      (connect exConnectEnvOK 0 exCloudSession).2) ∧
    (connect exConnectEnvOK 0 exCloudSession).1 = Except.ok
      { addr := "host:3306", user := "alice", password := "otp",
        overrideSocket := true } := by
  have h := connect_cloudSQL_port_override exConnectEnvOK 0 exCloudSession
    "otp" rfl rfl rfl rfl (by decide)
  refine ⟨?_, ?_⟩
  · have h2 := h.2.1 "host" rfl
    exact (h.1 (joinHostPort "host" "3307")).mpr (by rw [← h2])
  · exact h.2.2.2.2 rfl rfl

end MySQLEngine
